import Mathlib

/-!
Shallow embedding of the GFR-Fan-Translation CSV tool
(`src/transcmd.py` and `src/translations.py`).

A text file is modelled as a `List String` of lines (line terminators are
abstracted away; Python opens the files in universal-newline text mode, so a
"line" is what `readline` / the `csv` module sees as one record line).

Python's `csv.reader` (default dialect: delimiter `,`, quotechar `"`,
`doublequote=True`, non-strict) is embedded as a character-level state
machine processing one line into one record; `csv.writer` with
`quoting=csv.QUOTE_ALL` is embedded as the quoting serializer.
-/

namespace GFR

/-- State of Python's `csv` field parser
(START_FIELD / IN_FIELD / IN_QUOTED_FIELD / QUOTE_IN_QUOTED_FIELD). -/
inductive CsvState where
  | start
  | inField
  | inQuoted
  | quoteQuoted
deriving DecidableEq

/-- Character-level embedding of CPython's `_csv` record parser on one line.
`acc` is the current field accumulated in reverse. Non-strict mode: a stray
character after a closing quote is appended and parsing continues unquoted. -/
def csvRun : List Char → CsvState → List Char → List (List Char)
  | [], .start, _ => [[]]
  | [], _, acc => [acc.reverse]
  | c :: cs, .start, _ =>
    if c = '"' then csvRun cs .inQuoted []
    else if c = ',' then [] :: csvRun cs .start []
    else csvRun cs .inField [c]
  | c :: cs, .inField, acc =>
    if c = ',' then acc.reverse :: csvRun cs .start []
    else csvRun cs .inField (c :: acc)
  | c :: cs, .inQuoted, acc =>
    if c = '"' then csvRun cs .quoteQuoted acc
    else csvRun cs .inQuoted (c :: acc)
  | c :: cs, .quoteQuoted, acc =>
    if c = '"' then csvRun cs .inQuoted ('"' :: acc)
    else if c = ',' then acc.reverse :: csvRun cs .start []
    else csvRun cs .inField (c :: acc)

/-- `csv.reader` semantics for one line: an empty line yields the empty
record `[]`; otherwise the line is split into fields by `csvRun`. -/
def parseCSVLine (s : String) : List String :=
  if s.toList.isEmpty then []
  else (csvRun s.toList .start []).map (fun f => (⟨f⟩ : String))

/-- Double every quote character, as `csv.writer` does with
`doublequote=True`. -/
def escapeChars : List Char → List Char
  | [] => []
  | c :: cs => if c = '"' then '"' :: '"' :: escapeChars cs else c :: escapeChars cs

/-- One field written under `quoting=csv.QUOTE_ALL`: always wrapped in
quotes, internal quotes doubled. -/
def writeFieldChars (f : List Char) : List Char :=
  '"' :: (escapeChars f ++ ['"'])

/-- One record written under `quoting=csv.QUOTE_ALL`: quoted fields joined
by the delimiter. -/
def writeRowChars : List (List Char) → List Char
  | [] => []
  | [f] => writeFieldChars f
  | f :: g :: t => writeFieldChars f ++ ',' :: writeRowChars (g :: t)

/-- `csv.writer(..., quoting=csv.QUOTE_ALL).writerow` producing one output
line. -/
def writeRow (r : List String) : String :=
  ⟨writeRowChars (r.map String.toList)⟩

/-- The whole-file record parser of Python's `csv.reader`, running on the
file's character stream (each line terminated by a line break): a line
break ends the current record in every state except inside a quoted
field, where it is an ordinary field character, so a record may span
several lines. `acc` is the current field (reversed), `fs` the completed
fields of the current record (reversed); a line break at the very start
of a record yields the empty record, as CPython does for a blank line. -/
def csvRecs : List Char → CsvState → List Char → List (List Char) →
    List (List (List Char))
  | [], .start, _, [] => []
  | [], .start, _, fs => [fs.reverse ++ [[]]]
  | [], _, acc, fs => [fs.reverse ++ [acc.reverse]]
  | c :: cs, .start, _, fs =>
    if c = '\n' then
      (if fs.isEmpty then [] else fs.reverse ++ [[]]) ::
        csvRecs cs .start [] []
    else if c = '"' then csvRecs cs .inQuoted [] fs
    else if c = ',' then csvRecs cs .start [] ([] :: fs)
    else csvRecs cs .inField [c] fs
  | c :: cs, .inField, acc, fs =>
    if c = '\n' then
      (fs.reverse ++ [acc.reverse]) :: csvRecs cs .start [] []
    else if c = ',' then csvRecs cs .start [] (acc.reverse :: fs)
    else csvRecs cs .inField (c :: acc) fs
  | c :: cs, .inQuoted, acc, fs =>
    if c = '"' then csvRecs cs .quoteQuoted acc fs
    else csvRecs cs .inQuoted (c :: acc) fs
  | c :: cs, .quoteQuoted, acc, fs =>
    if c = '\n' then
      (fs.reverse ++ [acc.reverse]) :: csvRecs cs .start [] []
    else if c = '"' then csvRecs cs .inQuoted ('"' :: acc) fs
    else if c = ',' then csvRecs cs .start [] (acc.reverse :: fs)
    else csvRecs cs .inField (c :: acc) fs

/-- The character stream of a file given as its lines, each line
terminated by a line break. -/
def fileChars : List String → List Char
  | [] => []
  | l :: ls => l.toList ++ '\n' :: fileChars ls

/-- All logical records `csv.reader` yields for a file: records are
delimited by line breaks outside quoted fields, so one record can consume
several lines. -/
def csvReadAll (lines : List String) : List (List String) :=
  (csvRecs (fileChars lines) .start [] []).map
    (fun r => r.map (fun f => (⟨f⟩ : String)))

/-- One record of the mapping file, as loaded by `build_translation_file`:
`if len(row) >= 2: translations[row[0]] = row[1]`. -/
def loadTranslationRow (row : List String) : Option (String × String) :=
  if 2 ≤ row.length then some (row.getD 0 "", row.getD 1 "") else none

/-- The Translation Index built from the mapping file's lines. The Python
`dict` is modelled as the association list of bindings in file order;
lookup takes the last matching binding, which is exactly the dict's
last-write-wins overwrite semantics. -/
def translationsOf (mappingLines : List String) : List (String × String) :=
  (mappingLines.map parseCSVLine).filterMap loadTranslationRow

/-- `key in translations` / `translations[key]`: the last binding for
`key` wins, as for a Python dict built by repeated assignment. -/
def indexLookup (translations : List (String × String)) (key : String) :
    Option String :=
  ((translations.filter (fun p => p.1 == key)).getLast?).map Prod.snd

/-- The resolved output row `[key, original_text, new_text]` of the merger
(lines 74-84 of `src/transcmd.py`). -/
def resolveRow (translations : List (String × String)) (row : List String) :
    List String :=
  [row.getD 0 "", row.getD 1 "",
    match indexLookup translations (row.getD 0 "") with
    | some v => v
    | none => row.getD 2 ""]

/-- One data row of the merger: rows with fewer than 3 fields are dropped,
rows with at least 3 fields are resolved. -/
def processRow (translations : List (String × String)) (row : List String) :
    Option (List String) :=
  if 3 ≤ row.length then some (resolveRow translations row) else none

/-- One data row of the extractor (`create_mapping_file`): rows with at
least 3 fields emit `[key, original_text]`, others are dropped. -/
def extractRow (row : List String) : Option (List String) :=
  if 3 ≤ row.length then some [row.getD 0 "", row.getD 1 ""] else none

/-- `create_mapping_file` of both `src/transcmd.py` and
`src/translations.py` (they are identical): skip the first 3 records,
emit `[key, original_text]` for every record with at least 3 fields,
written with full quoting. -/
def create_mapping_file (source : List String) : List String :=
  (((source.map parseCSVLine).drop 3).filterMap extractRow).map writeRow

namespace Transcmd

/-- `build_translation_file` of `src/transcmd.py`: load the Translation
Index from the mapping file; read the first 3 source lines raw; parse the
remaining lines as records and resolve those with at least 3 fields; write
the raw header lines followed by the fully quoted data rows. -/
def build_translation_file (source mapping : List String) : List String :=
  let translations := translationsOf mapping
  let header_lines := source.take 3
  let data_rows :=
    ((source.drop 3).map parseCSVLine).filterMap (processRow translations)
  header_lines ++ data_rows.map writeRow

end Transcmd

namespace TranslationsPy

/-- `build_translation_file` of `src/translations.py`: load the Translation
Index; read the first 3 source RECORDS through the csv reader (a record
may span several lines when a quoted field stays open at a line break) and
keep the truthy ones (`if header_row:` drops a `None` from EOF and an
empty record from a blank line); resolve the remaining records with at
least 3 fields; write header records and data rows all with full
quoting. -/
def build_translation_file (source mapping : List String) : List String :=
  let translations := translationsOf mapping
  let records := csvReadAll source
  let header_rows := (records.take 3).filter (fun r => !r.isEmpty)
  let data_rows := (records.drop 3).filterMap (processRow translations)
  (header_rows ++ data_rows).map writeRow

end TranslationsPy

/-- The file-system surface the CLI touches: a map from path to the lines
of an existing file. -/
structure FileSystem where
  files : String → Option (List String)

/-- Writing (creating or truncating) one file. -/
def FileSystem.write (fs : FileSystem) (path : String)
    (content : List String) : FileSystem :=
  ⟨fun p => if p = path then some content else fs.files p⟩

/-- The two pre-flight failures of the CLI's `build` branch. -/
inductive MergeError where
  | SourceNotFound
  | MappingNotFound
deriving DecidableEq

/-- The `build` branch of `main` (lines 177-189 of `src/transcmd.py`,
lines 127-145 of `src/translations.py`): check the source path first, then
the mapping path; on a missing file report the error and stop without
writing; otherwise run the merger and write the output file. -/
def mainBuild (fs : FileSystem) (source mapping output : String) :
    Option MergeError × FileSystem :=
  match fs.files source with
  | none => (some .SourceNotFound, fs)
  | some src =>
    match fs.files mapping with
    | none => (some .MappingNotFound, fs)
    | some m =>
      (none, fs.write output (Transcmd.build_translation_file src m))

/-- The merger's three sequential phases, with fallible input reads: read
the mapping file to completion, then read the source file to completion,
and only then open and write the output file. A failure in either read
phase propagates and the file system is returned untouched. -/
def buildPhases (readMapping readSource : Except String (List String))
    (fs : FileSystem) (output : String) : Option String × FileSystem :=
  match readMapping with
  | .error e => (some e, fs)
  | .ok m =>
    match readSource with
    | .error e => (some e, fs)
    | .ok s =>
      (none, fs.write output (Transcmd.build_translation_file s m))

/-! ### Round-trip lemmas: the quoting writer is inverted by the reader -/

theorem csvRun_escape_quoted (f : List Char) :
    ∀ (rest acc : List Char),
      csvRun (escapeChars f ++ '"' :: rest) .inQuoted acc =
        csvRun rest .quoteQuoted (f.reverse ++ acc) := by
  induction f with
  | nil =>
    intro rest acc
    simp [escapeChars, csvRun]
  | cons c t ih =>
    intro rest acc
    by_cases hc : c = '"'
    · subst hc
      simp [escapeChars, csvRun, ih]
    · simp [escapeChars, csvRun, hc, ih]

theorem csvRun_writeField (f : List Char) (rest acc : List Char) :
    csvRun (writeFieldChars f ++ rest) .start acc =
      csvRun rest .quoteQuoted f.reverse := by
  simp [writeFieldChars, csvRun, List.append_assoc, csvRun_escape_quoted]

theorem csvRun_writeRowChars :
    ∀ (rs : List (List Char)), rs ≠ [] →
      csvRun (writeRowChars rs) .start [] = rs
  | [], h => absurd rfl h
  | [f], _ => by
    have h := csvRun_writeField f [] []
    rw [List.append_nil] at h
    simp only [writeRowChars]
    rw [h]
    simp [csvRun]
  | f :: g :: t, _ => by
    simp only [writeRowChars]
    rw [csvRun_writeField]
    simp [csvRun, csvRun_writeRowChars (g :: t) (by simp)]

theorem writeRowChars_cons (x : List Char) (xs : List (List Char)) :
    ∃ cs, writeRowChars (x :: xs) = '"' :: cs := by
  cases xs with
  | nil => exact ⟨escapeChars x ++ ['"'], rfl⟩
  | cons g t =>
    exact ⟨(escapeChars x ++ ['"']) ++ ',' :: writeRowChars (g :: t), by
      simp [writeRowChars, writeFieldChars]⟩

theorem map_mk_map_toList (l : List String) :
    (l.map String.toList).map (fun f => (⟨f⟩ : String)) = l := by
  rw [List.map_map]
  have h : ((fun f => (⟨f⟩ : String)) ∘ String.toList) = id := by
    funext s
    rfl
  rw [h, List.map_id]

/-- A record written with full quoting parses back to itself. -/
theorem parseCSVLine_writeRow (r : List String) :
    parseCSVLine (writeRow r) = r := by
  cases r with
  | nil => rfl
  | cons f t =>
    obtain ⟨cs, hcs⟩ := writeRowChars_cons f.toList (t.map String.toList)
    have htl : (writeRow (f :: t)).toList =
        writeRowChars ((f :: t).map String.toList) := rfl
    have hne : (writeRowChars ((f :: t).map String.toList)).isEmpty = false := by
      have hm : (f :: t).map String.toList = f.toList :: t.map String.toList := rfl
      rw [hm, hcs]
      rfl
    simp only [parseCSVLine, htl, hne, Bool.false_eq_true, if_false]
    rw [csvRun_writeRowChars ((f :: t).map String.toList) (by simp)]
    exact map_mk_map_toList (f :: t)

/-! ### Translation Index lemmas -/

theorem translationsOf_append (xs ys : List String) :
    translationsOf (xs ++ ys) = translationsOf xs ++ translationsOf ys := by
  simp [translationsOf, List.filterMap_append]

theorem translationsOf_cons (l : String) (ls : List String) :
    translationsOf (l :: ls) =
      (loadTranslationRow (parseCSVLine l)).toList ++ translationsOf ls := by
  cases h : loadTranslationRow (parseCSVLine l) <;>
    simp [translationsOf, List.filterMap_cons, h]

theorem mem_translationsOf (p : String × String) (ls : List String)
    (hp : p ∈ translationsOf ls) :
    ∃ l ∈ ls, 2 ≤ (parseCSVLine l).length ∧
      p = ((parseCSVLine l).getD 0 "", (parseCSVLine l).getD 1 "") := by
  simp only [translationsOf, List.mem_filterMap, List.mem_map] at hp
  obtain ⟨row, ⟨l, hl, hrow⟩, hload⟩ := hp
  subst hrow
  refine ⟨l, hl, ?_, ?_⟩
  · by_contra hlen
    simp [loadTranslationRow, hlen] at hload
  · by_cases hlen : 2 ≤ (parseCSVLine l).length
    · rw [loadTranslationRow, if_pos hlen] at hload
      exact (Option.some.inj hload).symm
    · simp [loadTranslationRow, hlen] at hload

theorem indexLookup_append_getLast (A B : List (String × String))
    (k v : String) (hB : ∀ p ∈ B, p.1 ≠ k) :
    indexLookup (A ++ (k, v) :: B) k = some v := by
  have hBnil : B.filter (fun p => p.1 == k) = [] := by
    rw [List.filter_eq_nil_iff]
    intro p hp
    simp [hB p hp]
  have hk : ((k, v).1 == k) = true := by simp
  rw [indexLookup, List.filter_append, List.filter_cons, if_pos hk, hBnil]
  rw [show A.filter (fun p => p.1 == k) ++ (k, v) :: ([] : List (String × String)) =
    A.filter (fun p => p.1 == k) ++ [(k, v)] from rfl]
  rw [List.getLast?_concat]
  rfl

theorem indexLookup_isSome_of_mem (l : List (String × String))
    (p : String × String) (k : String) (hp : p ∈ l) (hk : p.1 = k) :
    ∃ v, indexLookup l k = some v := by
  have hmem : p ∈ l.filter (fun q => q.1 == k) := by
    rw [List.mem_filter]
    exact ⟨hp, by simp [hk]⟩
  have hne : l.filter (fun q => q.1 == k) ≠ [] := by
    intro hnil
    rw [hnil] at hmem
    exact absurd hmem (List.not_mem_nil p)
  obtain ⟨q, hq⟩ := Option.isSome_iff_exists.mp (List.getLast?_isSome.mpr hne)
  exact ⟨q.2, by rw [indexLookup, hq]; rfl⟩

/-- The Translation Index built from the Extractor's own output consists of
one `(key, original_text)` binding per retained source row, in order. -/
theorem translationsOf_create (source : List String) :
    translationsOf (create_mapping_file source) =
      ((source.map parseCSVLine).drop 3).filterMap
        (fun row => if 3 ≤ row.length then
          some (row.getD 0 "", row.getD 1 "") else none) := by
  rw [translationsOf, create_mapping_file, List.map_map]
  have hid : (parseCSVLine ∘ writeRow) = id := funext parseCSVLine_writeRow
  rw [hid, List.map_id, List.filterMap_filterMap]
  congr 1
  funext row
  by_cases h : 3 ≤ row.length
  · simp [extractRow, loadTranslationRow, h, Option.bind]
  · simp [extractRow, h]

/-! ### Data-row lemmas -/

theorem filterMap_processRow (t : List (String × String))
    (rows : List (List String)) :
    rows.filterMap (processRow t) =
      (rows.filter (fun r => decide (3 ≤ r.length))).map (resolveRow t) := by
  induction rows with
  | nil => rfl
  | cons r rs ih =>
    by_cases h : 3 ≤ r.length
    · simp [List.filterMap_cons, List.filter_cons, processRow, h, ih]
    · simp [List.filterMap_cons, List.filter_cons, processRow, h, ih]

theorem length_filterMap_processRow (t : List (String × String))
    (rows : List (List String)) :
    (rows.filterMap (processRow t)).length =
      rows.countP (fun r => decide (3 ≤ r.length)) := by
  rw [filterMap_processRow, List.length_map, List.countP_eq_length_filter]

/-! ### Record reader on lines that are complete records -/

/-- C1: for every source data row with at least 3 fields, the Merger emits
the row `(key, original, resolved)` where `key = field[0]`,
`original = field[1]`, and `resolved` equals the Translation Index value for
`key` when `key` is in the index, and the row's third field (the fallback)
when it is absent. -/
theorem claim_c1 (source mapping : List String) (row : List String)
    (hrow : row ∈ (source.drop 3).map parseCSVLine)
    (h3 : 3 ≤ row.length) :
    processRow (translationsOf mapping) row =
      some [row.getD 0 "", row.getD 1 "",
        match indexLookup (translationsOf mapping) (row.getD 0 "") with
        | some v => v
        | none => row.getD 2 ""] ∧
    writeRow [row.getD 0 "", row.getD 1 "",
        match indexLookup (translationsOf mapping) (row.getD 0 "") with
        | some v => v
        | none => row.getD 2 ""] ∈
      Transcmd.build_translation_file source mapping := by
  have h1 : processRow (translationsOf mapping) row =
      some (resolveRow (translationsOf mapping) row) := by
    rw [processRow, if_pos h3]
  refine ⟨h1, ?_⟩
  have h2 : resolveRow (translationsOf mapping) row ∈
      ((source.drop 3).map parseCSVLine).filterMap
        (processRow (translationsOf mapping)) :=
    List.mem_filterMap.mpr ⟨row, hrow, h1⟩
  simp only [Transcmd.build_translation_file]
  exact List.mem_append_right _ (List.mem_map_of_mem writeRow h2)

/-- The hypotheses of C1 hold at a concrete source and mapping file, and
the theorem evaluates there. -/
theorem claim_c1_witness :
    (["k","o","f"] ∈
      ((["h1", "h2", "h3", "\x22k\x22,\x22o\x22,\x22f\x22"].drop 3).map
        parseCSVLine)) ∧
    3 ≤ (["k","o","f"] : List String).length ∧
    (processRow (translationsOf ["\x22k\x22,\x22t\x22"]) ["k","o","f"] =
        some ["k", "o", "t"] ∧
      writeRow ["k", "o", "t"] ∈
        Transcmd.build_translation_file
          ["h1", "h2", "h3", "\x22k\x22,\x22o\x22,\x22f\x22"]
          ["\x22k\x22,\x22t\x22"]) :=
  ⟨by decide, by decide, claim_c1 _ _ _ (by decide) (by decide)⟩

/-- C2: the first 3 lines of the Merger's output are the first 3 lines of
the source, unchanged, for every source file (in particular one whose
header is not valid quoted CSV): the header is copied raw, never parsed or
re-quoted. -/
theorem claim_c2 (source mapping : List String) :
    (Transcmd.build_translation_file source mapping).take 3 =
      source.take 3 := by
  simp only [Transcmd.build_translation_file]
  rw [List.take_append_eq_append_take]
  have htt : (source.take 3).take 3 = source.take 3 := by
    rw [List.take_take]
    norm_num
  by_cases h : 3 ≤ source.length
  · have hlen : (source.take 3).length = 3 := by
      rw [List.length_take]
      omega
    rw [htt, hlen, Nat.sub_self, List.take_zero, List.append_nil]
  · have hdrop : source.drop 3 = [] := List.drop_eq_nil_of_le (by omega)
    rw [htt, hdrop]
    simp

/-- C5: a source row that parses to fewer than 3 fields is emitted by
neither the Extractor (`create_mapping_file` drops it) nor the Merger
(`build_translation_file` drops it), and both remain total. -/
theorem claim_c5 (translations : List (String × String))
    (row : List String) (h : row.length < 3) :
    extractRow row = none ∧ processRow translations row = none := by
  have h3 : ¬ 3 ≤ row.length := by omega
  exact ⟨by rw [extractRow, if_neg h3], by rw [processRow, if_neg h3]⟩

/-- The hypothesis of C5 holds at a concrete 2-field row, and the theorem
evaluates there. -/
theorem claim_c5_witness :
    (["key", "text"] : List String).length < 3 ∧
    (extractRow ["key", "text"] = none ∧
      processRow [] ["key", "text"] = none) :=
  ⟨by decide, claim_c5 [] ["key", "text"] (by decide)⟩

/-- C6: the Merger writes exactly one output line per source line beyond
the 3-line header that parses to a record with at least 3 fields, plus the
preserved header lines. -/
theorem claim_c6 (source mapping : List String) :
    (Transcmd.build_translation_file source mapping).length =
      (source.take 3).length +
        (source.drop 3).countP
          (fun l => decide (3 ≤ (parseCSVLine l).length)) := by
  simp only [Transcmd.build_translation_file]
  rw [List.length_append, List.length_map, length_filterMap_processRow,
    List.countP_map]
  rfl

/-- C7: the Merger's output is the raw header followed by exactly the
retained source data rows (those with at least 3 fields), each resolved and
written in place: the output data rows are the order-preserving image of
the retained source rows, with no reordering. -/
theorem claim_c7 (source mapping : List String) :
    Transcmd.build_translation_file source mapping =
      source.take 3 ++
        (((source.drop 3).map parseCSVLine).filter
            (fun r => decide (3 ≤ r.length))).map
          (fun row => writeRow (resolveRow (translationsOf mapping) row)) := by
  simp only [Transcmd.build_translation_file]
  rw [filterMap_processRow, List.map_map]
  rfl

/-- C4: when the mapping file holds two records with the same key (each
with at least 2 fields) and different text values, and no later record
reuses that key, the Translation Index maps the key to the text of the
last such record in file order, and the merged output of every matching
source row carries only that later value. -/
theorem claim_c4 (pre mid post : List String) (la lb k va vb : String)
    (row : List String)
    (ha1 : 2 ≤ (parseCSVLine la).length)
    (ha2 : (parseCSVLine la).getD 0 "" = k)
    (ha3 : (parseCSVLine la).getD 1 "" = va)
    (hb1 : 2 ≤ (parseCSVLine lb).length)
    (hb2 : (parseCSVLine lb).getD 0 "" = k)
    (hb3 : (parseCSVLine lb).getD 1 "" = vb)
    (hdiff : va ≠ vb)
    (hpost : ∀ l ∈ post, 2 ≤ (parseCSVLine l).length →
      (parseCSVLine l).getD 0 "" ≠ k)
    (hrow : 3 ≤ row.length) (hkey : row.getD 0 "" = k) :
    indexLookup (translationsOf (pre ++ la :: mid ++ lb :: post)) k =
      some vb ∧
    processRow (translationsOf (pre ++ la :: mid ++ lb :: post)) row =
      some [k, row.getD 1 "", vb] := by
  have hsplit : pre ++ la :: mid ++ lb :: post =
      (pre ++ la :: mid) ++ lb :: post := by simp
  have hload : loadTranslationRow (parseCSVLine lb) = some (k, vb) := by
    rw [loadTranslationRow, if_pos hb1, hb2, hb3]
  have hentries : translationsOf (pre ++ la :: mid ++ lb :: post) =
      translationsOf (pre ++ la :: mid) ++
        (k, vb) :: translationsOf post := by
    rw [hsplit, translationsOf_append, translationsOf_cons, hload]
    rfl
  have hB : ∀ p ∈ translationsOf post, p.1 ≠ k := by
    intro p hp
    obtain ⟨l, hl, hlen, hpe⟩ := mem_translationsOf p post hp
    rw [hpe]
    exact hpost l hl hlen
  have hlook : indexLookup (translationsOf (pre ++ la :: mid ++ lb :: post))
      k = some vb := by
    rw [hentries]
    exact indexLookup_append_getLast _ _ k vb hB
  refine ⟨hlook, ?_⟩
  rw [processRow, if_pos hrow, resolveRow, hkey, hlook]

/-- The hypotheses of C4 hold at a concrete mapping file with two records
for the same key, and the theorem evaluates there: the later value wins. -/
theorem claim_c4_witness :
    2 ≤ (parseCSVLine ("\x22k\x22,\x22va\x22")).length ∧
    2 ≤ (parseCSVLine ("\x22k\x22,\x22vb\x22")).length ∧
    (("va" : String) ≠ ("vb" : String)) ∧
    (indexLookup
        (translationsOf
          ([] ++ ("\x22k\x22,\x22va\x22") :: [] ++
            ("\x22k\x22,\x22vb\x22") :: [])) ("k") = some ("vb") ∧
      processRow
        (translationsOf
          ([] ++ ("\x22k\x22,\x22va\x22") :: [] ++
            ("\x22k\x22,\x22vb\x22") :: [])) ["k", "o", "f"] =
        some ["k", "o", "vb"]) :=
  ⟨by decide, by decide, by decide,
    claim_c4 [] [] [] ("\x22k\x22,\x22va\x22") ("\x22k\x22,\x22vb\x22")
      ("k") ("va") ("vb") ["k", "o", "f"]
      (by decide) (by decide) (by decide) (by decide) (by decide)
      (by decide) (by decide) (by simp) (by decide) (by decide)⟩

/-- C3 fails as stated: in the round trip (merge against the unedited
Extractor output) a source with a duplicated key has a data row whose
original text equals its fallback, yet whose resolved text is the later
occurrence's original, not its own. Here the first data row is
`["k","o1","o1"]` (original = fallback = "o1") but the merged output
resolves it to "o2". -/
theorem claim_c3_counterexample :
    (["k", "o1", "o1"] ∈
      (((["h1", "h2", "h3", "\x22k\x22,\x22o1\x22,\x22o1\x22",
          "\x22k\x22,\x22o2\x22,\x22x\x22"] : List String).map
        parseCSVLine).drop 3)) ∧
    Transcmd.build_translation_file
        ["h1", "h2", "h3", "\x22k\x22,\x22o1\x22,\x22o1\x22",
          "\x22k\x22,\x22o2\x22,\x22x\x22"]
        (create_mapping_file
          ["h1", "h2", "h3", "\x22k\x22,\x22o1\x22,\x22o1\x22",
            "\x22k\x22,\x22o2\x22,\x22x\x22"]) =
      ["h1", "h2", "h3", "\x22k\x22,\x22o1\x22,\x22o2\x22",
        "\x22k\x22,\x22o2\x22,\x22o2\x22"] ∧
    (("o2" : String) ≠ ("o1" : String)) := by
  refine ⟨by decide, by decide, by decide⟩

/-- C3 (amended): merging the unedited Extractor output back over the same
source resolves every retained data row to the Translation Index value of
its key (every key in the index receives its mapped value, regardless of
the source's third-column fallback); and resolved text equals original
text for every retained row whose key does not recur in a later retained
row (in particular for all rows when keys are unique), hence for such rows
where original equals the prior fallback. -/
theorem claim_c3 (source : List String) (pre post : List (List String))
    (row : List String)
    (hsplit : (source.map parseCSVLine).drop 3 = pre ++ row :: post)
    (h3 : 3 ≤ row.length)
    (hlast : ∀ r ∈ post, 3 ≤ r.length → r.getD 0 "" ≠ row.getD 0 "") :
    (∀ r ∈ (source.map parseCSVLine).drop 3, 3 ≤ r.length →
      ∃ v, indexLookup (translationsOf (create_mapping_file source))
          (r.getD 0 "") = some v ∧
        processRow (translationsOf (create_mapping_file source)) r =
          some [r.getD 0 "", r.getD 1 "", v]) ∧
    processRow (translationsOf (create_mapping_file source)) row =
      some [row.getD 0 "", row.getD 1 "", row.getD 1 ""] := by
  constructor
  · intro r hr hr3
    have hentry : (r.getD 0 "", r.getD 1 "") ∈
        translationsOf (create_mapping_file source) := by
      rw [translationsOf_create]
      exact List.mem_filterMap.mpr ⟨r, hr, by rw [if_pos hr3]⟩
    obtain ⟨v, hv⟩ := indexLookup_isSome_of_mem _ _ (r.getD 0 "") hentry rfl
    exact ⟨v, hv, by rw [processRow, if_pos hr3, resolveRow, hv]⟩
  · have hentries : translationsOf (create_mapping_file source) =
        pre.filterMap (fun r => if 3 ≤ r.length then
            some (r.getD 0 "", r.getD 1 "") else none) ++
          (row.getD 0 "", row.getD 1 "") ::
            post.filterMap (fun r => if 3 ≤ r.length then
              some (r.getD 0 "", r.getD 1 "") else none) := by
      rw [translationsOf_create, hsplit, List.filterMap_append,
        List.filterMap_cons, if_pos h3]
    have hB : ∀ p ∈ post.filterMap (fun r => if 3 ≤ r.length then
        some (r.getD 0 "", r.getD 1 "") else none),
        p.1 ≠ row.getD 0 "" := by
      intro p hp
      obtain ⟨r, hr, hload⟩ := List.mem_filterMap.mp hp
      by_cases hlen : 3 ≤ r.length
      · rw [if_pos hlen] at hload
        rw [← Option.some.inj hload]
        exact hlast r hr hlen
      · rw [if_neg hlen] at hload
        exact absurd hload (by simp)
    have hlook : indexLookup (translationsOf (create_mapping_file source))
        (row.getD 0 "") = some (row.getD 1 "") := by
      rw [hentries]
      exact indexLookup_append_getLast _ _ _ _ hB
    rw [processRow, if_pos h3, resolveRow, hlook]

/-- The hypotheses of C3 hold at a concrete source file with a unique key,
and the theorem evaluates there: the round trip resolves the row to its
own original text. -/
theorem claim_c3_witness :
    ((["h1", "h2", "h3", "\x22k\x22,\x22o\x22,\x22f\x22"] : List String).map
        parseCSVLine).drop 3 = [] ++ ["k", "o", "f"] :: [] ∧
    3 ≤ (["k", "o", "f"] : List String).length ∧
    ((∀ r ∈ ((["h1", "h2", "h3",
          "\x22k\x22,\x22o\x22,\x22f\x22"] : List String).map
            parseCSVLine).drop 3, 3 ≤ r.length →
      ∃ v, indexLookup
          (translationsOf (create_mapping_file
            ["h1", "h2", "h3", "\x22k\x22,\x22o\x22,\x22f\x22"]))
          (r.getD 0 "") = some v ∧
        processRow
          (translationsOf (create_mapping_file
            ["h1", "h2", "h3", "\x22k\x22,\x22o\x22,\x22f\x22"])) r =
          some [r.getD 0 "", r.getD 1 "", v]) ∧
    processRow
        (translationsOf (create_mapping_file
          ["h1", "h2", "h3", "\x22k\x22,\x22o\x22,\x22f\x22"]))
        ["k", "o", "f"] =
      some ["k", "o", "o"]) :=
  ⟨by decide, by decide,
    claim_c3 ["h1", "h2", "h3", "\x22k\x22,\x22o\x22,\x22f\x22"]
      [] [] ["k", "o", "f"] (by decide) (by decide) (by simp)⟩

/-- C9 fails as stated: with an empty file system, both the source path
and the mapping path are missing, and the `build` branch reports
`SourceNotFound` (the source check runs first), not `MappingNotFound`,
even though the mapping path does not resolve to an existing file. -/
theorem claim_c9_counterexample :
    (FileSystem.mk (fun _ => none)).files ("mapping.csv") = none ∧
    (mainBuild ⟨fun _ => none⟩ ("source.csv") ("mapping.csv")
        ("out.csv")).1 = some MergeError.SourceNotFound ∧
    some MergeError.SourceNotFound ≠ some MergeError.MappingNotFound :=
  ⟨rfl, rfl, by decide⟩

/-- C9 (amended): provided the source path resolves to an existing file,
invoking the Merger with a mapping path that does not resolve to an
existing file produces a `MappingNotFound` failure before any processing
starts, and the file system is left untouched: no output file is created
or written. -/
theorem claim_c9 (fs : FileSystem) (source mapping output : String)
    (src : List String)
    (hsrc : fs.files source = some src)
    (hmap : fs.files mapping = none) :
    mainBuild fs source mapping output =
      (some MergeError.MappingNotFound, fs) := by
  rw [mainBuild, hsrc, hmap]

/-- The hypotheses of C9 hold at a concrete file system holding only the
source file, and the theorem evaluates there: the result is
`MappingNotFound` with the file system unchanged. -/
theorem claim_c9_witness :
    (FileSystem.mk (fun p => if p = ("source.csv") then some ["line"]
        else none)).files ("source.csv") = some ["line"] ∧
    (FileSystem.mk (fun p => if p = ("source.csv") then some ["line"]
        else none)).files ("mapping.csv") = none ∧
    mainBuild
        ⟨fun p => if p = ("source.csv") then some ["line"] else none⟩
        ("source.csv") ("mapping.csv") ("out.csv") =
      (some MergeError.MappingNotFound,
        ⟨fun p => if p = ("source.csv") then some ["line"] else none⟩) :=
  ⟨by decide, by decide,
    claim_c9 ⟨fun p => if p = ("source.csv") then some ["line"] else none⟩
      ("source.csv") ("mapping.csv") ("out.csv") ["line"]
      (by decide) (by decide)⟩

/-- C10: the merger writes the output file only after the mapping read
phase and the source read phase have both completed; a failure in either
input phase propagates as the result and returns the file system exactly
as it was, so no partial output is produced by an input-side error. -/
theorem claim_c10 (readMapping readSource : Except String (List String))
    (fs : FileSystem) (output : String) :
    (∃ e, readMapping = .error e ∧
      buildPhases readMapping readSource fs output = (some e, fs)) ∨
    (∃ m e, readMapping = .ok m ∧ readSource = .error e ∧
      buildPhases readMapping readSource fs output = (some e, fs)) ∨
    (∃ m s, readMapping = .ok m ∧ readSource = .ok s ∧
      buildPhases readMapping readSource fs output =
        (none, fs.write output (Transcmd.build_translation_file s m))) := by
  cases readMapping with
  | error e => exact Or.inl ⟨e, rfl, rfl⟩
  | ok m =>
    cases readSource with
    | error e => exact Or.inr (Or.inl ⟨m, e, rfl, rfl, rfl⟩)
    | ok s => exact Or.inr (Or.inr ⟨m, s, rfl, rfl, rfl⟩)

end GFR
